import Mathlib

/-
Verification of the A/B-test aggregation and report engine of the prompt-hub
backend (backend/controllers/ab_test_controller.py together with the data
model in backend/models/ab_test.py).

Modelling conventions:
- Python floats are modelled as rationals; arithmetic is exact.
- Python lists are Lean lists; `sorted` is modelled by insertion sort with
  the reflexive order on rationals (only the value sequence matters).
- Python dicts built by `setdefault(key, []).append(r)` iterate their keys in
  first-insertion order, and the group stored under a key is exactly the
  subsequence of elements carrying that key; this is modelled by
  `firstSeenKeys` together with `List.filter`.
- Fallible controller operations return `Option`; `none` models a propagated
  NotFound from the store.
-/

namespace ABTestHub

/-- Embedding of the `TestResult` pydantic model (backend/models/ab_test.py).
Fields the aggregation and report engine never reads (ids, input payload,
generated text, timestamp, feedback and error strings) are omitted. -/
structure TestResult where
  variant_id : String
  model_id : String
  generation_time_ms : ℚ
  total_tokens : ℤ
  prompt_tokens : ℤ
  completion_tokens : ℤ
  cost_usd : ℚ
  user_rating : Option ℚ
  auto_score : Option ℚ
  comparison_winner : Option Bool
  status : String
deriving DecidableEq, Inhabited

/-- Embedding of the `AggregateMetrics` pydantic model. -/
structure AggregateMetrics where
  variant_id : String
  model_id : String
  total_runs : ℕ
  success_runs : ℕ
  error_runs : ℕ
  avg_generation_time_ms : ℚ
  p50_generation_time_ms : ℚ
  p95_generation_time_ms : ℚ
  p99_generation_time_ms : ℚ
  total_tokens_used : ℤ
  avg_tokens_per_run : ℚ
  total_cost_usd : ℚ
  avg_cost_per_run : ℚ
  avg_user_rating : Option ℚ
  win_rate : Option ℚ
  user_preference_rate : Option ℚ
  avg_auto_score : Option ℚ
deriving DecidableEq, Inhabited

/-- Python `sorted` on a list of numbers (only values matter, so any
correct sort gives the same list). -/
def pySorted (l : List ℚ) : List ℚ := l.insertionSort (· ≤ ·)

/-- Embedding of `statistics.median`: the middle element of the sorted data,
or the mean of the two middle elements for even length.  (The Python
function raises on empty data; every call site below guards for that.) -/
def median (l : List ℚ) : ℚ :=
  if (pySorted l).length % 2 = 1 then (pySorted l).getD ((pySorted l).length / 2) 0
  else ((pySorted l).getD ((pySorted l).length / 2 - 1) 0 +
        (pySorted l).getD ((pySorted l).length / 2) 0) / 2

/-- The clamped rank `j` of cut point `i` of `statistics.quantiles` with the
exclusive method: `j = i*(ld+1) // n` clamped to `1 .. ld-1`. -/
def qjIdx (ld n i : ℕ) : ℕ :=
  if (i * (ld + 1)) / n < 1 then 1
  else if ld - 1 < (i * (ld + 1)) / n then ld - 1
  else (i * (ld + 1)) / n

/-- The interpolation remainder `delta = i*(ld+1) % n` of cut point `i`. -/
def qDelta (ld n i : ℕ) : ℕ := (i * (ld + 1)) % n

/-- Embedding of cut point number `i` (1-based, `1 ≤ i ≤ n-1`) of
`statistics.quantiles(data, n=n)` with the default exclusive method:
`j, delta = divmod(i*(ld+1), n)`, `j` clamped to `1..ld-1`, then
`(data[j-1]*(n-delta) + data[j]*delta) / n`.  (The sorted data has the same
length as `l`, so `ld` is written `l.length`.) -/
def quantileExc (l : List ℚ) (n : ℕ) (i : ℕ) : ℚ :=
  ((pySorted l).getD (qjIdx l.length n i - 1) 0 * ((n - qDelta l.length n i : ℕ) : ℚ) +
   (pySorted l).getD (qjIdx l.length n i) 0 * (qDelta l.length n i : ℚ)) / (n : ℚ)

/-- The (variant_id, model_id) grouping key of a result. -/
def pairKey (r : TestResult) : String × String := (r.variant_id, r.model_id)

/-- The distinct grouping keys of a result list in first-seen order: the key
iteration order of the Python dict built by `groups.setdefault(key, [])`. -/
def firstSeenKeys : List TestResult → List (String × String)
  | [] => []
  | r :: rs => pairKey r :: (firstSeenKeys rs).filter (fun k => k != pairKey r)

/-- The comprehension `[r for r in results if r.status == "success"]`. -/
def successResults (results : List TestResult) : List TestResult :=
  results.filter (fun r => r.status == "success")

/-- The comprehension `times` of `aggregate_metrics`. -/
def successTimes (results : List TestResult) : List ℚ :=
  (successResults results).map (·.generation_time_ms)

/-- The comprehension `tokens` of `aggregate_metrics`. -/
def successTokens (results : List TestResult) : List ℤ :=
  (successResults results).map (·.total_tokens)

/-- The comprehension `costs` of `aggregate_metrics`. -/
def successCosts (results : List TestResult) : List ℚ :=
  (successResults results).map (·.cost_usd)

/-- The comprehension `ratings` of `aggregate_metrics`. -/
def ratingsOf (results : List TestResult) : List ℚ :=
  (results.filter (fun r => r.user_rating.isSome)).map (fun r => r.user_rating.getD 0)

/-- The comprehension `wins` of `aggregate_metrics`: over results with a
non-absent `comparison_winner`, `1` for a true flag and `0` otherwise. -/
def winsOf (results : List TestResult) : List ℕ :=
  (results.filter (fun r => r.comparison_winner.isSome)).map
    (fun r => if r.comparison_winner == some true then 1 else 0)

/-- The comprehension `auto_scores` of `aggregate_metrics`. -/
def autoScoresOf (results : List TestResult) : List ℚ :=
  (results.filter (fun r => r.auto_score.isSome)).map (fun r => r.auto_score.getD 0)

/-- The `p50_generation_time_ms` expression: `statistics.median(times) if times
else 0.0`. -/
def p50Of (times : List ℚ) : ℚ :=
  if times.isEmpty then 0 else median times

/-- The `p95_generation_time_ms` expression:
`statistics.quantiles(times, n=100)[94] if len(times) >= 100 else
(sorted(times)[int(0.95*(len(times)-1))] if times else 0.0)`.
For the sample sizes that reach the small branch (`1 ≤ n ≤ 99`) the float
product `0.95*(n-1)` truncates to exactly `⌊19*(n-1)/20⌋`, so the index is
written with exact natural division. -/
def p95Of (times : List ℚ) : ℚ :=
  if 100 ≤ times.length then quantileExc times 100 95
  else if times.isEmpty then 0
  else (pySorted times).getD (19 * (times.length - 1) / 20) 0

/-- The `p99_generation_time_ms` expression, analogous to `p95Of` with
`int(0.99*(len(times)-1)) = ⌊99*(n-1)/100⌋` on the small branch. -/
def p99Of (times : List ℚ) : ℚ :=
  if 100 ≤ times.length then quantileExc times 100 99
  else if times.isEmpty then 0
  else (pySorted times).getD (99 * (times.length - 1) / 100) 0

/-- The per-group body of `ABTestController.aggregate_metrics`: the
`AggregateMetrics(...)` constructor call for one (variant_id, model_id)
partition. -/
def aggregateOf (variant_id model_id : String) (results : List TestResult) :
    AggregateMetrics :=
  let times := successTimes results
  let tokens := successTokens results
  let costs := successCosts results
  let ratings := ratingsOf results
  let wins := winsOf results
  let auto_scores := autoScoresOf results
  { variant_id := variant_id
    model_id := model_id
    total_runs := results.length
    success_runs := (results.filter (fun r => r.status == "success")).length
    error_runs := (results.filter (fun r => r.status != "success")).length
    avg_generation_time_ms := if times.isEmpty then 0 else times.sum / (times.length : ℚ)
    p50_generation_time_ms := p50Of times
    p95_generation_time_ms := p95Of times
    p99_generation_time_ms := p99Of times
    total_tokens_used := if tokens.isEmpty then 0 else tokens.sum
    avg_tokens_per_run := if tokens.isEmpty then 0 else (tokens.sum : ℚ) / (tokens.length : ℚ)
    total_cost_usd := if costs.isEmpty then 0 else costs.sum
    avg_cost_per_run := if costs.isEmpty then 0 else costs.sum / (costs.length : ℚ)
    avg_user_rating := if ratings.isEmpty then none else some (ratings.sum / (ratings.length : ℚ))
    win_rate := if wins.isEmpty then none else some ((wins.sum : ℚ) / (wins.length : ℚ))
    user_preference_rate :=
      if results.isEmpty then none else some ((wins.sum : ℚ) / (results.length : ℚ))
    avg_auto_score :=
      if auto_scores.isEmpty then none else some (auto_scores.sum / (auto_scores.length : ℚ)) }

/-- The pure core of `ABTestController.aggregate_metrics`: partition the
results by (variant_id, model_id), keys in first-seen (dict insertion) order,
each partition keeping the original relative order, and aggregate each
partition. -/
def aggregate (results : List TestResult) : List AggregateMetrics :=
  (firstSeenKeys results).map
    (fun k => aggregateOf k.1 k.2 (results.filter (fun r => pairKey r == k)))

/-- The composite ranking key of `generate_report`, as a lexicographically
ordered 4-tuple mirroring Python tuple comparison:
`(x.win_rate or 0, x.avg_user_rating or 0, -(x.avg_cost_per_run or 0),
-(x.avg_generation_time_ms or 0))`.  The last two fields are non-optional
floats, for which `v or 0` has the same numeric value as `v`. -/
abbrev LexKey : Type := ℚ ×ₗ (ℚ ×ₗ (ℚ ×ₗ ℚ))

/-- The ranking key of one `AggregateMetrics` under `generate_report`. -/
def bestKey (a : AggregateMetrics) : LexKey :=
  toLex (a.win_rate.getD 0,
    toLex (a.avg_user_rating.getD 0,
      toLex (-a.avg_cost_per_run, -a.avg_generation_time_ms)))

/-- Embedding of `sorted(items, key=..., reverse=True)[0]` on the nonempty list
`x :: xs`: since Python's sort is stable and `reverse=True` preserves the
original order of equal keys, this is the first element attaining the
maximal key, realised as a left fold that replaces the current best only on
a strictly greater key. -/
def bestOf (x : AggregateMetrics) (xs : List AggregateMetrics) : AggregateMetrics :=
  xs.foldl (fun b a => if bestKey b < bestKey a then a else b) x

/-- Lift of `bestOf` to a possibly-empty list (the Python code would raise an
IndexError on an empty group, which cannot occur: every group is nonempty by
construction). -/
def best1 : List AggregateMetrics → Option AggregateMetrics
  | [] => none
  | x :: xs => some (bestOf x xs)

/-- The distinct `variant_id`s of an aggregate list in first-seen order: the
key iteration order of the `by_variant` dict of `generate_report`. -/
def variantKeys : List AggregateMetrics → List String
  | [] => []
  | a :: rest => a.variant_id :: (variantKeys rest).filter (fun v => v != a.variant_id)

/-- The `winner_analysis` dict of `generate_report`: for each variant (in
first-seen order) the model id of the best aggregate of that variant. -/
def winnerAnalysis (aggregates : List AggregateMetrics) : List (String × String) :=
  (variantKeys aggregates).filterMap
    (fun v => (best1 (aggregates.filter (fun a => a.variant_id == v))).map
      (fun b => (v, b.model_id)))

/-- The `overall_stats` dict of `generate_report`. -/
structure OverallStats where
  total_runs : ℕ
  total_cost_usd : ℚ
  avg_cost_per_run : ℚ
deriving DecidableEq, Inhabited

/-- The `overall_stats` computation of `generate_report`: total runs and
total cost summed across all aggregates, and the unweighted mean of the
per-group `avg_cost_per_run` values (`0` for an empty aggregate list). -/
def overallStats (aggregates : List AggregateMetrics) : OverallStats :=
  { total_runs := (aggregates.map (·.total_runs)).sum
    total_cost_usd := (aggregates.map (·.total_cost_usd)).sum
    avg_cost_per_run :=
      if aggregates.isEmpty then 0
      else (aggregates.map (·.avg_cost_per_run)).sum / (aggregates.length : ℚ) }

/-- The `test_summary` dict of `generate_report`. -/
structure TestSummary where
  name : String
  status : String
  prompt_variants : ℕ
  model_configs : ℕ
  sample_size : ℕ
deriving DecidableEq, Inhabited

/-- Embedding of the `ABTestReport` pydantic model, restricted to the fields
the report synthesis claims are about.  `report_id` (a fresh uuid) and
`generated_at` are environmental nondeterminism and omitted; the placeholder
fields `cost_benefit_analysis`, `statistical_significance` and
`recommendations` are always emitted empty and carried as such. -/
structure ABTestReport where
  test_id : String
  test_summary : TestSummary
  overall_stats : OverallStats
  variant_performance : List AggregateMetrics
  winner_analysis : List (String × String)
  recommendations : List String
deriving DecidableEq, Inhabited

/-- Embedding of the `ABTest` pydantic model, restricted to the fields read
by `aggregate_metrics` and `generate_report`.  `prompt_variants` and
`model_configs` are kept as lists of ids since the engine only reads their
lengths. -/
structure ABTest where
  test_id : String
  test_name : String
  status : String
  prompt_variants : List String
  model_configs : List String
  sample_size : ℕ
  results : List TestResult
  aggregate_metrics : List AggregateMetrics
deriving DecidableEq, Inhabited

/-- Modelled from the spec: the Result Store accessor (spec section 2), an
external collaborator of the repository whose implementation is not under
src/.  It is an opaque durable key-value mapping with last-write-wins per
id, providing `get_test`, `save_test` and `save_report`; modelled as an
association list of tests (most recent write first) plus the list of saved
reports. -/
structure Storage where
  tests : List (String × ABTest)
  reports : List ABTestReport
deriving DecidableEq, Inhabited

/-- Embedding of `storage.get_test(test_id)`: last-write-wins lookup. -/
def getTest (st : Storage) (id : String) : Option ABTest :=
  (st.tests.find? (fun p => p.1 == id)).map (·.2)

/-- Embedding of `storage.save_test(test)`: overwrite the record stored under the test's
own id. -/
def saveTest (st : Storage) (t : ABTest) : Storage :=
  { st with tests := (t.test_id, t) :: st.tests.filter (fun p => p.1 != t.test_id) }

/-- Embedding of `storage.save_report(report)`. -/
def saveReport (st : Storage) (rep : ABTestReport) : Storage :=
  { st with reports := st.reports ++ [rep] }

/-- Embedding of `ABTestController.aggregate_metrics(test_id)`: load the test (a NotFound
from the store propagates as `none`), compute the aggregates from its
results, store them on the test record's `aggregate_metrics` field, save the
test, and return the aggregates together with the post-state of the store. -/
def aggregateMetricsOp (st : Storage) (test_id : String) :
    Option (List AggregateMetrics × Storage) :=
  match getTest st test_id with
  | none => none
  | some test =>
    let aggs := aggregate test.results
    some (aggs, saveTest st { test with aggregate_metrics := aggs })

/-- The expression `test.aggregate_metrics or self.aggregate_metrics(test_id)`
of `generate_report`, paired with the store state after it: an empty (falsy)
stored aggregate list triggers the computing-and-persisting fallback.  (The
`none` arm of the inner match is unreachable: the test was just loaded.) -/
def aggregatesForReport (st : Storage) (test_id : String) (test : ABTest) :
    List AggregateMetrics × Storage :=
  if test.aggregate_metrics.isEmpty then
    match aggregateMetricsOp st test_id with
    | some p => p
    | none => ([], st)
  else (test.aggregate_metrics, st)

/-- Embedding of `ABTestController.generate_report(test_id)`: load the test, take its
stored aggregates or (if that list is empty, hence falsy) compute and
persist them via `aggregate_metrics`, build the winner analysis and overall
statistics, assemble the report, save it, and return it with the post-state
of the store. -/
def generateReportOp (st : Storage) (test_id : String) :
    Option (ABTestReport × Storage) :=
  match getTest st test_id with
  | none => none
  | some test =>
    let aggregates := (aggregatesForReport st test_id test).1
    let st1 := (aggregatesForReport st test_id test).2
    let report : ABTestReport :=
      { test_id := test_id
        test_summary :=
          { name := test.test_name
            status := test.status
            prompt_variants := test.prompt_variants.length
            model_configs := test.model_configs.length
            sample_size := test.sample_size }
        overall_stats := overallStats aggregates
        variant_performance := aggregates
        winner_analysis := winnerAnalysis aggregates
        recommendations := [] }
    some (report, saveReport st1 report)

/-- The aggregate list stored on the test record under a given id, the
observable the persistence claims compare before and after an operation. -/
def storedAggregates (st : Storage) (id : String) : Option (List AggregateMetrics) :=
  (getTest st id).map (·.aggregate_metrics)

/-- A run result literal with only the aggregation-relevant fields varying;
token and cost fields fixed to simple values. -/
def mkResult (v m : String) (t : ℚ) (st : String) (cw : Option Bool)
    (rating : Option ℚ) : TestResult :=
  { variant_id := v
    model_id := m
    generation_time_ms := t
    total_tokens := 10
    prompt_tokens := 4
    completion_tokens := 6
    cost_usd := 1/100
    user_rating := rating
    auto_score := none
    comparison_winner := cw
    status := st }

/-- Concrete group of five runs for pair (v1, m1): exactly one judged
comparison, which is a win; the other four are unjudged. -/
def judgedGroup : List TestResult :=
  [ mkResult ("v1") ("m1") 100 ("success") (some true) none,
    mkResult ("v1") ("m1") 110 ("success") none none,
    mkResult ("v1") ("m1") 120 ("success") none none,
    mkResult ("v1") ("m1") 130 ("error") none none,
    mkResult ("v1") ("m1") 140 ("success") none none ]

/-- Concrete result list of the aggregation scenario: three successful runs
for pair (v1, m1) with generation times 100, 200, 300 ms, and no run at all
for pair (v1, m2). -/
def scenarioResults : List TestResult :=
  [ mkResult ("v1") ("m1") 100 ("success") none none,
    mkResult ("v1") ("m1") 200 ("success") none none,
    mkResult ("v1") ("m1") 300 ("success") none none ]

/-- Concrete test record holding one recorded run and no stored aggregates. -/
def persistTest : ABTest :=
  { test_id := "t3"
    test_name := "persist demo"
    status := "running"
    prompt_variants := ["v1"]
    model_configs := ["m1"]
    sample_size := 100
    results := [mkResult ("v1") ("m1") 100 ("success") none none]
    aggregate_metrics := [] }

/-- Concrete store holding `persistTest`. -/
def persistStorage : Storage :=
  { tests := [("t3", persistTest)], reports := [] }

/-- Aggregate entry for pair (v1, m1) whose win rate 4/5 dominates although
every tie-break field (rating, cost, latency) is worse than the rival's. -/
def aggA : AggregateMetrics :=
  { variant_id := "v1"
    model_id := "m1"
    total_runs := 5
    success_runs := 5
    error_runs := 0
    avg_generation_time_ms := 500
    p50_generation_time_ms := 500
    p95_generation_time_ms := 600
    p99_generation_time_ms := 700
    total_tokens_used := 50
    avg_tokens_per_run := 10
    total_cost_usd := 45
    avg_cost_per_run := 9
    avg_user_rating := some 1
    win_rate := some (4/5)
    user_preference_rate := some (4/5)
    avg_auto_score := none }

/-- Aggregate entry for pair (v1, m2) with the lower win rate 3/5 but better
rating, cost and latency than `aggA`. -/
def aggB : AggregateMetrics :=
  { variant_id := "v1"
    model_id := "m2"
    total_runs := 5
    success_runs := 5
    error_runs := 0
    avg_generation_time_ms := 10
    p50_generation_time_ms := 10
    p95_generation_time_ms := 12
    p99_generation_time_ms := 14
    total_tokens_used := 50
    avg_tokens_per_run := 10
    total_cost_usd := 5
    avg_cost_per_run := 1
    avg_user_rating := some 5
    win_rate := some (3/5)
    user_preference_rate := some (3/5)
    avg_auto_score := none }

/-- Concrete test record carrying the two preset aggregates `aggA`, `aggB`. -/
def demoTest : ABTest :=
  { test_id := "t1"
    test_name := "demo"
    status := "completed"
    prompt_variants := ["v1"]
    model_configs := ["m1", "m2"]
    sample_size := 100
    results := []
    aggregate_metrics := [aggA, aggB] }

/-- Concrete store holding `demoTest`. -/
def demoStorage : Storage :=
  { tests := [("t1", demoTest)], reports := [] }

/-- The concrete report run on `demoStorage`. -/
def demoRun : Option (ABTestReport × Storage) := generateReportOp demoStorage ("t1")

/-- The report produced by `demoRun`. -/
def demoRep : ABTestReport := (demoRun.map (·.1)).getD default

/-- The post-state of the store after `demoRun`. -/
def demoSt : Storage := (demoRun.map (·.2)).getD default

/-- Concrete test record carrying the single preset aggregate `aggA`. -/
def soloTest : ABTest :=
  { test_id := "t4"
    test_name := "solo"
    status := "completed"
    prompt_variants := ["v1"]
    model_configs := ["m1"]
    sample_size := 100
    results := []
    aggregate_metrics := [aggA] }

/-- Concrete store holding `soloTest`. -/
def soloStorage : Storage :=
  { tests := [("t4", soloTest)], reports := [] }

/-- The concrete report run on `soloStorage`. -/
def soloRun : Option (ABTestReport × Storage) := generateReportOp soloStorage ("t4")

/-- The report produced by `soloRun`. -/
def soloRep : ABTestReport := (soloRun.map (·.1)).getD default

/-- The post-state of the store after `soloRun`. -/
def soloSt : Storage := (soloRun.map (·.2)).getD default

/-- Concrete test record with zero recorded results and no stored
aggregates. -/
def emptyTest : ABTest :=
  { test_id := "t2"
    test_name := "empty"
    status := "draft"
    prompt_variants := ["v1", "v2"]
    model_configs := ["m1"]
    sample_size := 100
    results := []
    aggregate_metrics := [] }

/-- Concrete store holding `emptyTest`. -/
def emptyStorage : Storage :=
  { tests := [("t2", emptyTest)], reports := [] }

/-- The single aggregate entry produced for `judgedGroup`. -/
def judgedAgg : AggregateMetrics := (aggregate judgedGroup).headD default

/-- The single aggregate entry produced for `scenarioResults`. -/
def scenarioAgg : AggregateMetrics := (aggregate scenarioResults).headD default

theorem length_filter_add_length_filter_not {α : Type} (p : α → Bool) (l : List α) :
    (l.filter p).length + (l.filter (fun a => !(p a))).length = l.length := by
  induction l with
  | nil => rfl
  | cons a l ih => cases h : p a <;> simp [List.filter_cons, h] <;> omega

theorem exists_of_mem_firstSeenKeys :
    ∀ {rs : List TestResult} {k : String × String},
      k ∈ firstSeenKeys rs → ∃ r ∈ rs, pairKey r = k := by
  intro rs
  induction rs with
  | nil => intro k h; simp [firstSeenKeys] at h
  | cons r rs ih =>
    intro k h
    simp only [firstSeenKeys, List.mem_cons] at h
    rcases h with h | h
    · exact ⟨r, List.mem_cons_self r rs, h.symm⟩
    · obtain ⟨r1, hr1, hk⟩ := ih (List.mem_filter.mp h).1
      exact ⟨r1, List.mem_cons_of_mem r hr1, hk⟩

theorem group_ne_nil_of_mem_firstSeenKeys {rs : List TestResult} {k : String × String}
    (h : k ∈ firstSeenKeys rs) : rs.filter (fun r => pairKey r == k) ≠ [] := by
  obtain ⟨r, hr, hk⟩ := exists_of_mem_firstSeenKeys h
  have : r ∈ rs.filter (fun r => pairKey r == k) :=
    List.mem_filter.mpr ⟨hr, by simp [hk]⟩
  exact List.ne_nil_of_mem this

/-- Claim C2: in every aggregate entry, success runs and error runs
partition the group, so their counts add up to `total_runs`. -/
theorem c2_success_error_partition (results : List TestResult) :
    ∀ a ∈ aggregate results, a.success_runs + a.error_runs = a.total_runs := by
  intro a ha
  simp only [aggregate, List.mem_map] at ha
  obtain ⟨k, hk, rfl⟩ := ha
  exact length_filter_add_length_filter_not (fun (r : TestResult) => r.status == "success") _

theorem headD_mem_of_ne_nil {α : Type} [Inhabited α] {l : List α} (h : l ≠ []) :
    l.headD default ∈ l := by
  cases l with
  | nil => exact absurd rfl h
  | cons a l => exact List.mem_cons_self a l

theorem judgedAgg_mem : judgedAgg ∈ aggregate judgedGroup :=
  headD_mem_of_ne_nil (by decide)

theorem scenarioAgg_mem : scenarioAgg ∈ aggregate scenarioResults :=
  headD_mem_of_ne_nil (by decide)

/-- Witness for C2 on the concrete five-run group. -/
theorem c2_success_error_partition_witness :
    judgedAgg.success_runs + judgedAgg.error_runs = judgedAgg.total_runs :=
  c2_success_error_partition judgedGroup judgedAgg judgedAgg_mem

/-- Claim C10: every produced aggregate entry summarizes a nonempty
partition, so `total_runs ≥ 1` and `user_preference_rate` is never absent. -/
theorem c10_nonempty_partitions (results : List TestResult) :
    ∀ a ∈ aggregate results, 1 ≤ a.total_runs ∧ a.user_preference_rate.isSome := by
  intro a ha
  simp only [aggregate, List.mem_map] at ha
  obtain ⟨k, hk, rfl⟩ := ha
  have hne := group_ne_nil_of_mem_firstSeenKeys hk
  have hlen : 1 ≤ (results.filter (fun r => pairKey r == k)).length :=
    Nat.one_le_iff_ne_zero.mpr (fun h0 => hne (List.eq_nil_of_length_eq_zero h0))
  refine ⟨hlen, ?_⟩
  show (if (results.filter (fun (r : TestResult) => pairKey r == k)).isEmpty then none
        else some ((((winsOf (results.filter (fun (r : TestResult) => pairKey r == k))).sum : ℚ)) /
          ((results.filter (fun (r : TestResult) => pairKey r == k)).length : ℚ))).isSome
  rw [if_neg (by simpa [List.isEmpty_iff] using hne)]
  rfl

/-- Witness for C10 on the concrete five-run group. -/
theorem c10_nonempty_partitions_witness :
    1 ≤ judgedAgg.total_runs ∧ judgedAgg.user_preference_rate.isSome :=
  c10_nonempty_partitions judgedGroup judgedAgg judgedAgg_mem

/-- Counterexample to claim C5: aggregating three successful results for
pair (v1, m1) and none for pair (v1, m2) yields exactly ONE entry — only
for the observed pair (v1, m1) — not two entries with an all-zero entry for
(v1, m2). -/
theorem c5_counterexample_single_entry :
    (aggregate scenarioResults).map (fun a => (a.variant_id, a.model_id)) =
      [(("v1"), ("m1"))] := by decide

/-- Claim C5 as amended: aggregation emits an entry only for (variant,
model) pairs that occur in the result list, so a pair with an empty result
set yields no entry at all; on the scenario the single entry, for (v1, m1),
has `total_runs = 3`, `avg_generation_time_ms = 200` and
`p50_generation_time_ms = 200`. -/
theorem c5_amended_only_observed_pairs :
    (∀ (results : List TestResult) (a : AggregateMetrics), a ∈ aggregate results →
      results.filter (fun r => pairKey r == (a.variant_id, a.model_id)) ≠ [])
    ∧ (aggregate scenarioResults).length = 1
    ∧ scenarioAgg.variant_id = "v1" ∧ scenarioAgg.model_id = "m1"
    ∧ scenarioAgg.total_runs = 3
    ∧ scenarioAgg.avg_generation_time_ms = 200
    ∧ scenarioAgg.p50_generation_time_ms = 200 := by
  refine ⟨?_, by decide, by decide, by decide, by decide, ?_, ?_⟩
  · intro results a ha
    simp only [aggregate, List.mem_map] at ha
    obtain ⟨k, hk, rfl⟩ := ha
    exact group_ne_nil_of_mem_firstSeenKeys hk
  · norm_num [scenarioAgg, aggregate, firstSeenKeys, scenarioResults, mkResult, pairKey,
      aggregateOf, successTimes, successResults, List.filter]
  · norm_num [scenarioAgg, aggregate, firstSeenKeys, scenarioResults, mkResult, pairKey,
      aggregateOf, successTimes, successResults, List.filter, p50Of, median, pySorted,
      List.insertionSort, List.orderedInsert, List.getD]

/-- Witness for the amended C5 at the concrete scenario. -/
theorem c5_amended_only_observed_pairs_witness :
    scenarioResults.filter
      (fun r => pairKey r == (scenarioAgg.variant_id, scenarioAgg.model_id)) ≠ [] :=
  c5_amended_only_observed_pairs.1 scenarioResults scenarioAgg scenarioAgg_mem

/-- Counterexample to claim C6: the aggregation operation DOES persist its
result into the Test record — before the call the stored aggregate list is
empty, after the call it is not. -/
theorem c6_counterexample_persists :
    storedAggregates persistStorage ("t3") = some [] ∧
    ((aggregateMetricsOp persistStorage ("t3")).map (·.2)).bind
      (fun st => storedAggregates st ("t3")) ≠ some [] := by
  constructor
  · decide
  · decide

/-- Claim C6 as amended: `aggregate_metrics` computes the aggregates of the
test's results, persists them onto the test record via `save_test`, and has
no further effect (in particular the saved reports are untouched); when the
stored key is the test's own id the updated record is what a subsequent load
observes. -/
theorem c6_amended_persists (st : Storage) (tid : String)
    (aggs : List AggregateMetrics) (st' : Storage)
    (h : aggregateMetricsOp st tid = some (aggs, st')) :
    ∃ t, getTest st tid = some t ∧ aggs = aggregate t.results ∧
      st' = saveTest st { t with aggregate_metrics := aggs } ∧
      st'.reports = st.reports := by
  unfold aggregateMetricsOp at h
  cases hg : getTest st tid with
  | none => rw [hg] at h; cases h
  | some t =>
    rw [hg] at h
    simp only [Option.some.injEq, Prod.mk.injEq] at h
    obtain ⟨h1, h2⟩ := h
    refine ⟨t, rfl, h1.symm, ?_, ?_⟩
    · rw [← h1, ← h2]
    · rw [← h2]; rfl

/-- Witness for the amended C6 at the concrete one-test store. -/
theorem c6_amended_persists_witness :
    ∃ t, getTest persistStorage ("t3") = some t ∧
      aggregate persistTest.results = aggregate t.results ∧
      saveTest persistStorage
          { persistTest with aggregate_metrics := aggregate persistTest.results } =
        saveTest persistStorage { t with aggregate_metrics := aggregate persistTest.results } ∧
      (saveTest persistStorage
          { persistTest with aggregate_metrics := aggregate persistTest.results }).reports =
        persistStorage.reports := by
  have h := c6_amended_persists persistStorage ("t3") (aggregate persistTest.results)
    (saveTest persistStorage
      { persistTest with aggregate_metrics := aggregate persistTest.results }) rfl
  obtain ⟨t, hg, h1, h2, h3⟩ := h
  exact ⟨t, hg, h1, h2, h3⟩

theorem winsOf_length (results : List TestResult) :
    (winsOf results).length =
      results.countP (fun r => r.comparison_winner.isSome) := by
  simp [winsOf, ← List.countP_eq_length_filter]

theorem winsOf_sum (results : List TestResult) :
    ((winsOf results).sum : ℕ) =
      results.countP (fun r => r.comparison_winner == some true) := by
  induction results with
  | nil => rfl
  | cons r rs ih =>
    cases hc : r.comparison_winner with
    | none => simpa [winsOf, List.filter_cons, List.countP_cons, hc] using ih
    | some b =>
      cases b
      · simpa [winsOf, List.filter_cons, List.countP_cons, hc] using ih
      · have h := ih
        simp [winsOf, List.filter_cons, List.countP_cons, hc] at h ⊢
        omega

/-- Claim C3: `win_rate` is the count of true comparison flags over the count
of judged results (absent when nothing is judged), while
`user_preference_rate` is the same numerator over the whole partition size;
on the concrete group with one judged win among five runs, `win_rate = 1`
and `user_preference_rate = 1/5`. -/
theorem c3_win_rate_vs_preference_rate :
    (∀ (v m : String) (results : List TestResult),
      (aggregateOf v m results).win_rate =
        (if results.countP (fun r => r.comparison_winner.isSome) = 0 then none
         else some ((results.countP (fun r => r.comparison_winner == some true) : ℚ) /
           (results.countP (fun r => r.comparison_winner.isSome) : ℚ)))
      ∧ (aggregateOf v m results).user_preference_rate =
        (if results.length = 0 then none
         else some ((results.countP (fun r => r.comparison_winner == some true) : ℚ) /
           (results.length : ℚ))))
    ∧ (aggregateOf ("v1") ("m1") judgedGroup).win_rate = some 1
    ∧ (aggregateOf ("v1") ("m1") judgedGroup).user_preference_rate = some (1/5) := by
  refine ⟨?_, ?_, ?_⟩
  · intro v m results
    constructor
    · show (if (winsOf results).isEmpty then none
            else some (((winsOf results).sum : ℚ) / ((winsOf results).length : ℚ))) = _
      simp only [List.isEmpty_iff_length_eq_zero, winsOf_length, winsOf_sum]
    · show (if results.isEmpty then none
            else some (((winsOf results).sum : ℚ) / (results.length : ℚ))) = _
      simp only [List.isEmpty_iff_length_eq_zero, winsOf_sum]
  · norm_num [aggregateOf, winsOf, judgedGroup, mkResult, List.filter]
  · norm_num [aggregateOf, winsOf, judgedGroup, mkResult, List.filter]

theorem natFloor_cast_div_mul (c d k : ℕ) :
    ⌊((c : ℚ) / (d : ℚ)) * (k : ℚ)⌋₊ = c * k / d := by
  rw [div_mul_eq_mul_div, ← Nat.cast_mul, Nat.floor_div_nat, Nat.floor_natCast]

/-- Claim C1: the p95/p99 percentiles follow the dual rule — with at least
100 success samples they are the 95th/99th cut point of the 100-bucket
equal-probability quantile computation; with a nonempty smaller sample they
are the sorted sample's element at truncated index `0.95*(n-1)` resp.
`0.99*(n-1)`; with an empty sample the percentiles and the mean are 0. -/
theorem c1_percentile_dual_rule (v m : String) (results : List TestResult) :
    ((aggregateOf v m results).p95_generation_time_ms =
      (if 100 ≤ (successTimes results).length then
        quantileExc (successTimes results) 100 95
       else if (successTimes results).length ≠ 0 then
         (pySorted (successTimes results)).getD
           ⌊(0.95 : ℚ) * (((successTimes results).length : ℚ) - 1)⌋₊ 0
       else 0))
    ∧ ((aggregateOf v m results).p99_generation_time_ms =
      (if 100 ≤ (successTimes results).length then
        quantileExc (successTimes results) 100 99
       else if (successTimes results).length ≠ 0 then
         (pySorted (successTimes results)).getD
           ⌊(0.99 : ℚ) * (((successTimes results).length : ℚ) - 1)⌋₊ 0
       else 0))
    ∧ ((successTimes results).length = 0 →
        (aggregateOf v m results).p95_generation_time_ms = 0 ∧
        (aggregateOf v m results).p99_generation_time_ms = 0 ∧
        (aggregateOf v m results).avg_generation_time_ms = 0) := by
  have h95 : (0.95 : ℚ) = (19 : ℕ) / (20 : ℕ) := by norm_num
  have h99 : (0.99 : ℚ) = (99 : ℕ) / (100 : ℕ) := by norm_num
  refine ⟨?_, ?_, ?_⟩
  · show p95Of (successTimes results) = _
    by_cases h100 : 100 ≤ (successTimes results).length
    · simp [p95Of, h100]
    · by_cases h0 : (successTimes results).length = 0
      · have heq : successTimes results = [] := List.length_eq_zero.mp h0
        simp [p95Of, heq, pySorted]
      · have hne : successTimes results ≠ [] :=
          fun h => h0 (by rw [h]; rfl)
        have hcast : (((successTimes results).length : ℚ) - 1) =
            (((successTimes results).length - 1 : ℕ) : ℚ) := by
          rw [Nat.cast_sub (by omega), Nat.cast_one]
        rw [if_neg h100, if_pos h0, hcast, h95, natFloor_cast_div_mul]
        simp [p95Of, h100, hne]
  · show p99Of (successTimes results) = _
    by_cases h100 : 100 ≤ (successTimes results).length
    · simp [p99Of, h100]
    · by_cases h0 : (successTimes results).length = 0
      · have heq : successTimes results = [] := List.length_eq_zero.mp h0
        simp [p99Of, heq, pySorted]
      · have hne : successTimes results ≠ [] :=
          fun h => h0 (by rw [h]; rfl)
        have hcast : (((successTimes results).length : ℚ) - 1) =
            (((successTimes results).length - 1 : ℕ) : ℚ) := by
          rw [Nat.cast_sub (by omega), Nat.cast_one]
        rw [if_neg h100, if_pos h0, hcast, h99, natFloor_cast_div_mul]
        simp [p99Of, h100, hne]
  · intro h0
    have heq : successTimes results = [] := List.length_eq_zero.mp h0
    refine ⟨?_, ?_, ?_⟩
    · show p95Of (successTimes results) = 0
      simp [p95Of, heq, pySorted]
    · show p99Of (successTimes results) = 0
      simp [p99Of, heq, pySorted]
    · show (if (successTimes results).isEmpty then 0
            else (successTimes results).sum / ((successTimes results).length : ℚ)) = 0
      simp [heq]

/-- Witness for C1 at the empty sample. -/
theorem c1_percentile_dual_rule_witness :
    (aggregateOf ("v") ("m") []).p95_generation_time_ms = 0 ∧
    (aggregateOf ("v") ("m") []).p99_generation_time_ms = 0 ∧
    (aggregateOf ("v") ("m") []).avg_generation_time_ms = 0 :=
  (c1_percentile_dual_rule ("v") ("m") []).2.2 rfl

theorem generateReportOp_inv {st : Storage} {tid : String} {rep : ABTestReport}
    {st' : Storage} (h : generateReportOp st tid = some (rep, st')) :
    rep.overall_stats = overallStats rep.variant_performance ∧
    rep.winner_analysis = winnerAnalysis rep.variant_performance := by
  unfold generateReportOp at h
  split at h
  · cases h
  · simp only [Option.some.injEq, Prod.mk.injEq] at h
    obtain ⟨hrep, hst⟩ := h
    subst hrep
    exact ⟨rfl, rfl⟩

/-- Claim C7: the report's overall statistics are the sum of `total_runs`,
the sum of `total_cost_usd`, and — for a nonempty aggregate list — the
unweighted mean of the per-group `avg_cost_per_run` values (a mean of
means). -/
theorem c7_overall_stats (st : Storage) (tid : String) (rep : ABTestReport)
    (st' : Storage) (h : generateReportOp st tid = some (rep, st'))
    (hne : rep.variant_performance ≠ []) :
    rep.overall_stats.total_runs = (rep.variant_performance.map (·.total_runs)).sum ∧
    rep.overall_stats.total_cost_usd =
      (rep.variant_performance.map (·.total_cost_usd)).sum ∧
    rep.overall_stats.avg_cost_per_run =
      (rep.variant_performance.map (·.avg_cost_per_run)).sum /
        (rep.variant_performance.length : ℚ) := by
  obtain ⟨ho, -⟩ := generateReportOp_inv h
  rw [ho]
  unfold overallStats
  refine ⟨rfl, rfl, ?_⟩
  show (if rep.variant_performance.isEmpty then 0
        else (rep.variant_performance.map (·.avg_cost_per_run)).sum /
          (rep.variant_performance.length : ℚ)) = _
  rw [if_neg (by simpa [List.isEmpty_iff] using hne)]

/-- Witness for C7 on the concrete two-aggregate store. -/
theorem c7_overall_stats_witness :
    demoRep.overall_stats.total_runs =
      (demoRep.variant_performance.map (·.total_runs)).sum ∧
    demoRep.overall_stats.total_cost_usd =
      (demoRep.variant_performance.map (·.total_cost_usd)).sum ∧
    demoRep.overall_stats.avg_cost_per_run =
      (demoRep.variant_performance.map (·.avg_cost_per_run)).sum /
        (demoRep.variant_performance.length : ℚ) :=
  c7_overall_stats demoStorage ("t1") demoRep demoSt rfl (by decide)

/-- Claim C8: report synthesis on a test with zero recorded results and no
stored aggregates succeeds (no NotFound, nothing raised), with overall
`total_runs = 0` and an empty winner analysis. -/
theorem c8_empty_report (st : Storage) (tid : String) (test : ABTest)
    (hg : getTest st tid = some test) (hres : test.results = [])
    (hagg : test.aggregate_metrics = []) :
    ∃ rep st', generateReportOp st tid = some (rep, st') ∧
      rep.overall_stats.total_runs = 0 ∧ rep.winner_analysis = [] := by
  unfold generateReportOp aggregatesForReport aggregateMetricsOp
  rw [hg]
  dsimp only
  rw [hagg, hres]
  dsimp only [List.isEmpty_nil, if_true]
  exact ⟨_, _, rfl, rfl, rfl⟩

/-- Witness for C8 on the concrete empty test. -/
theorem c8_empty_report_witness :
    ∃ rep st', generateReportOp emptyStorage ("t2") = some (rep, st') ∧
      rep.overall_stats.total_runs = 0 ∧ rep.winner_analysis = [] :=
  c8_empty_report emptyStorage ("t2") emptyTest rfl rfl rfl

theorem bestOf_mem (x : AggregateMetrics) (xs : List AggregateMetrics) :
    bestOf x xs = x ∨ bestOf x xs ∈ xs := by
  induction xs generalizing x with
  | nil => exact Or.inl rfl
  | cons a xs ih =>
    have hstep : bestOf x (a :: xs) =
        bestOf (if bestKey x < bestKey a then a else x) xs := rfl
    rw [hstep]
    rcases ih (if bestKey x < bestKey a then a else x) with h | h
    · rw [h]
      split
      · exact Or.inr (List.mem_cons_self a xs)
      · exact Or.inl rfl
    · exact Or.inr (List.mem_cons_of_mem a h)

theorem bestKey_le_bestOf (x : AggregateMetrics) (xs : List AggregateMetrics) :
    bestKey x ≤ bestKey (bestOf x xs) ∧
    ∀ a ∈ xs, bestKey a ≤ bestKey (bestOf x xs) := by
  induction xs generalizing x with
  | nil => exact ⟨le_refl _, fun a ha => absurd ha (List.not_mem_nil a)⟩
  | cons a xs ih =>
    have hstep : bestOf x (a :: xs) =
        bestOf (if bestKey x < bestKey a then a else x) xs := rfl
    rw [hstep]
    obtain ⟨h1, h2⟩ := ih (if bestKey x < bestKey a then a else x)
    constructor
    · refine le_trans ?_ h1
      split
      · exact le_of_lt (by assumption)
      · exact le_refl _
    · intro b hb
      rcases List.mem_cons.mp hb with rfl | hb
      · refine le_trans ?_ h1
        split
        · exact le_refl _
        · exact le_of_not_lt (by assumption)
      · exact h2 b hb

/-- Claim C4: every winner named by the report is an aggregate of its
variant whose composite ranking key (win rate, then user rating, then
negated cost, then negated latency, absent optionals read as 0) is maximal
among that variant's aggregates; and a 4/5 win rate beats a 3/5 win rate
irrespective of every other field and of candidate order. -/
theorem c4_winner_selection (st : Storage) (tid : String) (rep : ABTestReport)
    (st' : Storage) (h : generateReportOp st tid = some (rep, st'))
    (v m : String) (hvm : (v, m) ∈ rep.winner_analysis) :
    (∃ chosen ∈ rep.variant_performance,
      chosen.variant_id = v ∧ chosen.model_id = m ∧
      ∀ a ∈ rep.variant_performance, a.variant_id = v → bestKey a ≤ bestKey chosen)
    ∧ (∀ x y : AggregateMetrics,
        x.win_rate = some (4/5) → y.win_rate = some (3/5) →
        bestOf x [y] = x ∧ bestOf y [x] = x) := by
  constructor
  · obtain ⟨-, hw⟩ := generateReportOp_inv h
    rw [hw] at hvm
    unfold winnerAnalysis at hvm
    rw [List.mem_filterMap] at hvm
    obtain ⟨v1, hv1, hmap⟩ := hvm
    rw [Option.map_eq_some'] at hmap
    obtain ⟨b, hb1, hb2⟩ := hmap
    injection hb2 with hveq hmeq
    subst hveq
    subst hmeq
    cases hfil : rep.variant_performance.filter (fun a => a.variant_id == v1) with
    | nil => rw [hfil] at hb1; cases hb1
    | cons x xs =>
      rw [hfil] at hb1
      have hb : b = bestOf x xs := by
        have : some (bestOf x xs) = some b := hb1
        exact (Option.some.injEq _ _ ▸ this).symm
      subst hb
      have hmem : bestOf x xs ∈ x :: xs := by
        rcases bestOf_mem x xs with h' | h'
        · rw [h']; exact List.mem_cons_self x xs
        · exact List.mem_cons_of_mem x h'
      have hmemfil : bestOf x xs ∈
          rep.variant_performance.filter (fun a => a.variant_id == v1) := by
        rw [hfil]; exact hmem
      refine ⟨bestOf x xs, List.mem_of_mem_filter hmemfil, ?_, rfl, ?_⟩
      · have := List.of_mem_filter hmemfil
        simpa using this
      · intro a ha hav
        have haf : a ∈ rep.variant_performance.filter
            (fun a => a.variant_id == v1) :=
          List.mem_filter.mpr ⟨ha, by simp [hav]⟩
        rw [hfil] at haf
        rcases List.mem_cons.mp haf with rfl | haf
        · exact (bestKey_le_bestOf a xs).1
        · exact (bestKey_le_bestOf x xs).2 a haf
  · intro x y hx hy
    have hxy : ¬ bestKey x < bestKey y := by
      unfold bestKey
      rw [hx, hy]
      simp only [Option.getD_some]
      rw [Prod.Lex.lt_iff]
      norm_num
    have hyx : bestKey y < bestKey x := by
      unfold bestKey
      rw [hx, hy]
      simp only [Option.getD_some]
      rw [Prod.Lex.lt_iff]
      norm_num
    constructor
    · show (if bestKey x < bestKey y then y else x) = x
      rw [if_neg hxy]
    · show (if bestKey y < bestKey x then x else y) = x
      rw [if_pos hyx]

/-- Witness for C4: on the concrete one-aggregate store the winner map names
(v1, m1), and with concrete candidates of win rate 4/5 vs 3/5 the 4/5
candidate is selected in either order. -/
theorem c4_winner_selection_witness :
    bestOf aggA [aggB] = aggA ∧ bestOf aggB [aggA] = aggA :=
  (c4_winner_selection soloStorage ("t4") soloRep soloSt rfl ("v1") ("m1")
    (by decide)).2 aggA aggB rfl rfl

theorem pySorted_sorted (l : List ℚ) : (pySorted l).Sorted (· ≤ ·) :=
  List.sorted_insertionSort _ l

theorem pySorted_length (l : List ℚ) : (pySorted l).length = l.length :=
  (List.perm_insertionSort _ l).length_eq

theorem pySorted_getD_mono (l : List ℚ) {i j : ℕ} (hij : i ≤ j)
    (hj : j < l.length) : (pySorted l).getD i 0 ≤ (pySorted l).getD j 0 := by
  have hl := pySorted_length l
  have hi2 : i < (pySorted l).length := by omega
  have hj2 : j < (pySorted l).length := by omega
  have h := List.Sorted.rel_get_of_le (pySorted_sorted l)
    (show (⟨i, hi2⟩ : Fin (pySorted l).length) ≤ ⟨j, hj2⟩ from hij)
  rw [List.getD_eq_getElem _ _ hi2, List.getD_eq_getElem _ _ hj2]
  simpa [List.get_eq_getElem] using h

theorem median_le_sorted_getD (l : List ℚ) {k : ℕ}
    (hk : l.length / 2 ≤ k) (hk2 : k < l.length) :
    median l ≤ (pySorted l).getD k 0 := by
  have hl := pySorted_length l
  unfold median
  rw [hl]
  split
  · exact pySorted_getD_mono l hk hk2
  · have h2 : (pySorted l).getD (l.length / 2 - 1) 0 ≤
        (pySorted l).getD (l.length / 2) 0 :=
      pySorted_getD_mono l (by omega) (by omega)
    have h3 : (pySorted l).getD (l.length / 2) 0 ≤ (pySorted l).getD k 0 :=
      pySorted_getD_mono l hk hk2
    linarith

theorem convex_comb_lb (a b : ℚ) (d : ℕ) (hab : a ≤ b) (hd : d ≤ 100) :
    a ≤ (a * ((100 - d : ℕ) : ℚ) + b * (d : ℚ)) / ((100 : ℕ) : ℚ) := by
  have hc : ((100 - d : ℕ) : ℚ) = 100 - (d : ℚ) := by
    rw [Nat.cast_sub hd]; norm_num
  rw [hc, Nat.cast_ofNat, le_div_iff₀ (by norm_num : (0:ℚ) < 100)]
  have hd0 : (0:ℚ) ≤ (d : ℚ) := Nat.cast_nonneg d
  nlinarith [mul_nonneg (sub_nonneg.mpr hab) hd0]

theorem convex_comb_ub (a b : ℚ) (d : ℕ) (hab : a ≤ b) (hd : d ≤ 100) :
    (a * ((100 - d : ℕ) : ℚ) + b * (d : ℚ)) / ((100 : ℕ) : ℚ) ≤ b := by
  have hc : ((100 - d : ℕ) : ℚ) = 100 - (d : ℚ) := by
    rw [Nat.cast_sub hd]; norm_num
  rw [hc, Nat.cast_ofNat, div_le_iff₀ (by norm_num : (0:ℚ) < 100)]
  have hd1 : (d : ℚ) ≤ 100 := by exact_mod_cast hd
  nlinarith [mul_nonneg (sub_nonneg.mpr hab) (sub_nonneg.mpr hd1)]

theorem qjIdx_eq {ld n i : ℕ} (h1 : 1 ≤ (i * (ld + 1)) / n)
    (h2 : (i * (ld + 1)) / n ≤ ld - 1) :
    qjIdx ld n i = (i * (ld + 1)) / n := by
  unfold qjIdx
  rw [if_neg (by omega), if_neg (by omega)]

theorem p50_le_p95 (times : List ℚ) (h3 : 3 ≤ times.length) :
    p50Of times ≤ p95Of times := by
  have hne : ¬ times.isEmpty := by
    rw [List.isEmpty_iff_length_eq_zero]; omega
  by_cases h100 : 100 ≤ times.length
  · rw [p50Of, if_neg hne, p95Of, if_pos h100]
    unfold quantileExc
    have hδ : qDelta times.length 100 95 < 100 := Nat.mod_lt _ (by norm_num)
    have hjeq : qjIdx times.length 100 95 = (95 * (times.length + 1)) / 100 :=
      qjIdx_eq (by omega) (by omega)
    rw [hjeq]
    have hmono : (pySorted times).getD ((95 * (times.length + 1)) / 100 - 1) 0 ≤
        (pySorted times).getD ((95 * (times.length + 1)) / 100) 0 :=
      pySorted_getD_mono times (by omega) (by omega)
    refine le_trans ?_ (convex_comb_lb _ _ _ hmono (by omega))
    exact median_le_sorted_getD times (by omega) (by omega)
  · rw [p50Of, if_neg hne, p95Of, if_neg h100, if_neg hne]
    exact median_le_sorted_getD times (by omega) (by omega)

theorem p95_le_p99 (times : List ℚ) (h3 : 3 ≤ times.length) :
    p95Of times ≤ p99Of times := by
  have hne : ¬ times.isEmpty := by
    rw [List.isEmpty_iff_length_eq_zero]; omega
  by_cases h100 : 100 ≤ times.length
  · rw [p95Of, if_pos h100, p99Of, if_pos h100]
    unfold quantileExc
    have hδ5 : qDelta times.length 100 95 < 100 := Nat.mod_lt _ (by norm_num)
    have hδ9 : qDelta times.length 100 99 < 100 := Nat.mod_lt _ (by norm_num)
    have hjeq : qjIdx times.length 100 95 = (95 * (times.length + 1)) / 100 :=
      qjIdx_eq (by omega) (by omega)
    have hJcases : qjIdx times.length 100 99 =
        if times.length - 1 < (99 * (times.length + 1)) / 100 then times.length - 1
        else (99 * (times.length + 1)) / 100 := by
      unfold qjIdx
      rw [if_neg (by omega)]
    have hJub : qjIdx times.length 100 99 < times.length := by
      rw [hJcases]; split <;> omega
    have hJlb : (95 * (times.length + 1)) / 100 + 1 ≤ qjIdx times.length 100 99 := by
      rw [hJcases]; split <;> omega
    rw [hjeq]
    have hmono5 : (pySorted times).getD ((95 * (times.length + 1)) / 100 - 1) 0 ≤
        (pySorted times).getD ((95 * (times.length + 1)) / 100) 0 :=
      pySorted_getD_mono times (by omega) (by omega)
    have hmono9 : (pySorted times).getD (qjIdx times.length 100 99 - 1) 0 ≤
        (pySorted times).getD (qjIdx times.length 100 99) 0 :=
      pySorted_getD_mono times (by omega) hJub
    have hmid : (pySorted times).getD ((95 * (times.length + 1)) / 100) 0 ≤
        (pySorted times).getD (qjIdx times.length 100 99 - 1) 0 :=
      pySorted_getD_mono times (by omega) (by omega)
    refine le_trans (convex_comb_ub _ _ _ hmono5 (by omega)) ?_
    refine le_trans hmid ?_
    exact convex_comb_lb _ _ _ hmono9 (by omega)
  · rw [p95Of, if_neg h100, if_neg hne, p99Of, if_neg h100, if_neg hne]
    exact pySorted_getD_mono times (by omega) (by omega)

/-- Claim C9: for a success-time sample with at least three distinct values,
the computed percentiles are monotone: `p50 ≤ p95 ≤ p99`. -/
theorem c9_percentile_monotone (v m : String) (results : List TestResult)
    (h3 : 3 ≤ (successTimes results).dedup.length) :
    (aggregateOf v m results).p50_generation_time_ms ≤
      (aggregateOf v m results).p95_generation_time_ms ∧
    (aggregateOf v m results).p95_generation_time_ms ≤
      (aggregateOf v m results).p99_generation_time_ms := by
  have hlen : 3 ≤ (successTimes results).length :=
    le_trans h3 (List.Sublist.length_le (List.dedup_sublist _))
  exact ⟨p50_le_p95 _ hlen, p95_le_p99 _ hlen⟩

/-- Witness for C9 on the concrete three-run sample. -/
theorem c9_percentile_monotone_witness :
    (aggregateOf ("v1") ("m1") scenarioResults).p50_generation_time_ms ≤
      (aggregateOf ("v1") ("m1") scenarioResults).p95_generation_time_ms ∧
    (aggregateOf ("v1") ("m1") scenarioResults).p95_generation_time_ms ≤
      (aggregateOf ("v1") ("m1") scenarioResults).p99_generation_time_ms :=
  c9_percentile_monotone ("v1") ("m1") scenarioResults (by decide)

end ABTestHub
